import Mathlib

/- Formal model of the source verification engine of the caesura project
   (src/verify/verify_command.rs). External collaborators (format provider,
   file collector, path manager, tag and stream verifiers, tracker API,
   torrent verifier) are modelled as pure functions gathered in an `Env`
   record; their invocations are tracked explicitly in a `Calls` record so
   that claims about which collaborators run (and how often) are statable.
   Fallible Rust functions returning `Result<_, AppError>` are modelled as
   `Except AppError _`. -/

set_option maxRecDepth 8192

namespace Caesura

/-- Modelled from the spec: the typed hard error (`AppError`) whose definition
is outside the provided sources; only its existence matters here. -/
structure AppError where
  message : String
deriving Repr, DecidableEq

/-- Rule taxonomy (`SourceRule`). The first seven variants are the ones used
directly by `verify_command.rs`. The remaining three families are
modelled from the spec: per-file tag violations, per-file stream violations
and the hash-mismatch violation, whose concrete variants live outside the
provided sources; they are abstracted as carrying a detail string. -/
inductive SourceRule where
  | SceneNotSupported
  | LossyMasterNeedsApproval
  | LossyWebNeedsApproval
  | NoTranscodeFormats
  | SourceDirectoryNotFound (path : String)
  | NoFlacFiles (path : String)
  | PathTooLong (path : String)
  | TagError (detail : String)
  | StreamError (detail : String)
  | HashMismatch (detail : String)
deriving Repr, DecidableEq

/-- Matches the Rust `matches!(rule, &PathTooLong(_))` test. -/
def SourceRule.isPathTooLong : SourceRule → Bool
  | SourceRule.PathTooLong _ => true
  | _ => false

/-- Torrent metadata of a source (fields read by the verify command). -/
structure Torrent where
  id : Nat
  scene : Bool
  lossy_master_approved : Option Bool
  lossy_web_approved : Option Bool
deriving Repr, DecidableEq

/-- Descriptive metadata of a source; only the `media` field is read here. -/
structure Metadata where
  media : String
deriving Repr, DecidableEq

/-- Source under verification (fields read by the verify command). -/
structure Source where
  torrent : Torrent
  format : String
  existing : List String
  directory : String
  metadata : Metadata
deriving Repr, DecidableEq

/-- Modelled from the spec: the platform path length limit `MAX_PATH_LENGTH`
(a crate constant outside the provided sources); the spec fixes no value, and
no claim depends on the value chosen here. -/
def MAX_PATH_LENGTH : Nat := 180

/-- Invocation record for the external collaborators: how often the file
collector ran, which files the path evaluator, tag verifier, stream verifier
and per-track shortener were invoked on, how often the album shortener ran,
and how often the tracker API was called. -/
structure Calls where
  collector : Nat
  pathEval : List String
  tagVerifier : List String
  streamVerifier : List String
  trackShortener : List String
  albumShortener : Nat
  api : Nat
deriving Repr, DecidableEq

/-- Empty invocation record. -/
def Calls.none : Calls := ⟨0, [], [], [], [], 0, 0⟩

/-- Pointwise combination of two invocation records. -/
def Calls.add (a b : Calls) : Calls :=
  ⟨a.collector + b.collector, a.pathEval ++ b.pathEval,
   a.tagVerifier ++ b.tagVerifier, a.streamVerifier ++ b.streamVerifier,
   a.trackShortener ++ b.trackShortener, a.albumShortener + b.albumShortener,
   a.api + b.api⟩

/-- One invocation of the file collector. -/
def collectorOnce : Calls := ⟨1, [], [], [], [], 0, 0⟩

/-- One invocation of the album-level shortener. -/
def albumOnce : Calls := ⟨0, [], [], [], [], 1, 0⟩

/-- One invocation of the tracker API. -/
def apiOnce : Calls := ⟨0, [], [], [], [], 0, 1⟩

/-- The environment of the verify command: the `skip_hash_check` option plus
the external collaborators, each modelled as a pure function. `targetsGet` is
`TargetFormatProvider::get`, `getFlacs` is `Collector::get_flacs`,
`maxTranscodeSubPath` is `PathManager::get_max_transcode_sub_path`,
`tagVerify` is `TagVerifier::execute`, `streamVerify` is
`StreamVerifier::execute`, `apiGetTorrentBuffer` is
`Api::get_torrent_file_as_buffer` and `imdlVerify` is
`ImdlCommand::verify_from_buffer`. -/
structure Env where
  skip_hash_check : Bool
  targetsGet : String → List String → List String
  dirExists : String → Bool
  dirIsDir : String → Bool
  getFlacs : String → List String
  maxTranscodeSubPath : Source → String → String
  tagVerify : String → String → Except AppError (List SourceRule)
  streamVerify : String → Except AppError (List SourceRule)
  apiGetTorrentBuffer : Nat → Except AppError (List Nat)
  imdlVerify : List Nat → String → Except AppError (List SourceRule)

/-- Condition of the early return in `flac_checks`:
`!source.directory.exists() || !source.directory.is_dir()`. -/
def dirMissing (env : Env) (s : Source) : Bool :=
  !env.dirExists s.directory || !env.dirIsDir s.directory

/-- The test `max_path.len() > MAX_PATH_LENGTH` for one file. -/
def tooLong (env : Env) (s : Source) (fl : String) : Bool :=
  decide ((env.maxTranscodeSubPath s fl).length > MAX_PATH_LENGTH)

/-- VerifyCommand::api_checks: the policy phase, evaluating the four
predicates in order and appending at most one rule each. -/
def api_checks (env : Env) (s : Source) : List SourceRule :=
  let errors : List SourceRule := []
  let errors := if s.torrent.scene then errors ++ [SourceRule.SceneNotSupported] else errors
  let errors := if s.torrent.lossy_master_approved = some true then
      errors ++ [SourceRule.LossyMasterNeedsApproval] else errors
  let errors := if s.torrent.lossy_web_approved = some true then
      errors ++ [SourceRule.LossyWebNeedsApproval] else errors
  let target_formats := env.targetsGet s.format s.existing
  let errors := if target_formats.isEmpty then
      errors ++ [SourceRule.NoTranscodeFormats] else errors
  errors

/-- Collaborator invocations made in one iteration of the per-file loop of
`flac_checks`: the path evaluator, the tag verifier and the stream verifier
run on the file, and the per-track shortener runs exactly when the computed
maximum transcode sub path is too long. -/
def perFileCalls (env : Env) (s : Source) (fl : String) : Calls :=
  ⟨0, [fl], [fl], [fl], if tooLong env s fl then [fl] else [], 0, 0⟩

/-- The per-file loop of `VerifyCommand::flac_checks`: for each file, check
the maximum transcode sub path length (appending `PathTooLong` and invoking
the per-track shortener when it exceeds the limit), then append every rule of
the tag verifier and of the stream verifier; a hard error of either verifier
propagates immediately (the Rust `?` operator). -/
def flacLoop (env : Env) (s : Source) : List String → Except AppError (List SourceRule × Calls)
  | [] => Except.ok ([], Calls.none)
  | fl :: rest =>
    match env.tagVerify fl s.metadata.media with
    | Except.error e => Except.error e
    | Except.ok tagRules =>
      match env.streamVerify fl with
      | Except.error e => Except.error e
      | Except.ok streamRules =>
        match flacLoop env s rest with
        | Except.error e => Except.error e
        | Except.ok (restRules, restCalls) =>
          Except.ok
            ((if tooLong env s fl then
                [SourceRule.PathTooLong (env.maxTranscodeSubPath s fl)]
              else []) ++ tagRules ++ streamRules ++ restRules,
             Calls.add (perFileCalls env s fl) restCalls)

/-- VerifyCommand::flac_checks: the file-content phase. A missing directory
short-circuits with a single `SourceDirectoryNotFound` rule before the
collector runs; an empty collection short-circuits with `NoFlacFiles`;
otherwise the per-file loop runs and the album-level shortener is invoked
once when any `PathTooLong` rule was produced. -/
def flac_checks (env : Env) (s : Source) : Except AppError (List SourceRule × Calls) :=
  if dirMissing env s then
    Except.ok ([SourceRule.SourceDirectoryNotFound s.directory], Calls.none)
  else
    let flacs := env.getFlacs s.directory
    if flacs.isEmpty then
      Except.ok ([SourceRule.NoFlacFiles s.directory], collectorOnce)
    else
      match flacLoop env s flacs with
      | Except.error e => Except.error e
      | Except.ok (errors, calls) =>
        Except.ok (errors,
          Calls.add collectorOnce
            (Calls.add calls
              (if errors.any SourceRule.isPathTooLong then albumOnce else Calls.none)))

/-- VerifyCommand::hash_check: fetch the torrent buffer from the tracker API
and hand it to the torrent verifier; any hard error propagates. -/
def hash_check (env : Env) (s : Source) : Except AppError (List SourceRule × Calls) :=
  match env.apiGetTorrentBuffer s.torrent.id with
  | Except.error e => Except.error e
  | Except.ok buffer =>
    match env.imdlVerify buffer s.directory with
    | Except.error e => Except.error e
    | Except.ok rules => Except.ok (rules, apiOnce)

/-- The hash branch of `VerifyCommand::execute`: skipped entirely (empty rule
list, no collaborator invocation) when `skip_hash_check` is set, otherwise
`hash_check` runs. -/
def hashPhase (env : Env) (s : Source) : Except AppError (List SourceRule × Calls) :=
  if env.skip_hash_check then Except.ok ([], Calls.none)
  else hash_check env s

/-- VerifyCommand::execute: run the policy checks, the file-content checks
and the hash phase in order, compute
`is_verified = api_errors.is_empty() && flac_errors.is_empty() && hash_check.is_empty()`
and surface the phase-ordered rule sequence (the reporting output). -/
def execute (env : Env) (s : Source) : Except AppError (Bool × List SourceRule × Calls) :=
  let api_errors := api_checks env s
  match flac_checks env s with
  | Except.error e => Except.error e
  | Except.ok (flac_errors, fcalls) =>
    match hashPhase env s with
    | Except.error e => Except.error e
    | Except.ok (hash_rules, hcalls) =>
      let is_verified := api_errors.isEmpty && flac_errors.isEmpty && hash_rules.isEmpty
      Except.ok (is_verified, api_errors ++ flac_errors ++ hash_rules,
        Calls.add fcalls hcalls)

/-- Contribution of one file to the rule list of the file-content phase:
its path rule (when too long), then its tag rules, then its stream rules. -/
def fileContrib (env : Env) (s : Source) (tg st : String → List SourceRule) (fl : String) :
    List SourceRule :=
  (if tooLong env s fl then [SourceRule.PathTooLong (env.maxTranscodeSubPath s fl)] else [])
    ++ tg fl ++ st fl

/-- Invocation record accumulated by the per-file loop over a file list. -/
def loopCalls (env : Env) (s : Source) (flacs : List String) : Calls :=
  ⟨0, flacs, flacs, flacs, flacs.filter (tooLong env s), 0, 0⟩

/-- Rule list of a successful file-content phase over a nonempty collection:
the concatenation of the per-file contributions in collector order. -/
def phaseRules (env : Env) (s : Source) (tg st : String → List SourceRule) : List SourceRule :=
  (env.getFlacs s.directory).flatMap (fileContrib env s tg st)

/-- Concrete source used to evaluate the theorems on explicit inputs. -/
def srcOk : Source := ⟨⟨7, false, none, none⟩, "FLAC", [], "/music/album", ⟨"CD"⟩⟩

/-- Concrete scene-flagged source. -/
def srcScene : Source := ⟨⟨7, true, none, none⟩, "FLAC", [], "/music/album", ⟨"CD"⟩⟩

/-- Concrete benign environment: hash check skipped, one well-formed file. -/
def envOk : Env :=
  ⟨true, fun _ _ => ["320"], fun _ => true, fun _ => true, fun _ => ["a.flac"],
   fun _ _ => "01 a.mp3", fun _ _ => Except.ok [], fun _ => Except.ok [],
   fun _ => Except.ok [], fun _ _ => Except.ok []⟩

/-- Invocation record of the file-content phase of `envOk` on one file. -/
def fcOk : Calls := ⟨1, ["a.flac"], ["a.flac"], ["a.flac"], [], 0, 0⟩

/-- Concrete environment whose format provider yields no eligible target
format. -/
def envNoFormats : Env :=
  ⟨true, fun _ _ => [], fun _ => true, fun _ => true, fun _ => ["t.flac"],
   fun _ _ => "01 t.mp3", fun _ _ => Except.ok [], fun _ => Except.ok [],
   fun _ => Except.ok [], fun _ _ => Except.ok []⟩

/-- Invocation record of the file-content phase of `envNoFormats`. -/
def fcNoFormats : Calls := ⟨1, ["t.flac"], ["t.flac"], ["t.flac"], [], 0, 0⟩

/-- Concrete environment whose source directory does not exist. -/
def envNoDir : Env :=
  ⟨true, fun _ _ => ["320"], fun _ => false, fun _ => true, fun _ => ["a.flac"],
   fun _ _ => "01 a.mp3", fun _ _ => Except.ok [], fun _ => Except.ok [],
   fun _ => Except.ok [], fun _ _ => Except.ok []⟩

/-- Concrete environment whose tag verifier fails hard on every file. -/
def envTagFails : Env :=
  ⟨true, fun _ _ => ["320"], fun _ => true, fun _ => true, fun _ => ["a.flac"],
   fun _ _ => "01 a.mp3", fun _ _ => Except.error ⟨"io failure"⟩, fun _ => Except.ok [],
   fun _ => Except.ok [], fun _ _ => Except.ok []⟩

/-- Concrete environment whose tracker API fails hard, hash check enabled. -/
def envApiFails : Env :=
  ⟨false, fun _ _ => ["320"], fun _ => true, fun _ => true, fun _ => ["a.flac"],
   fun _ _ => "01 a.mp3", fun _ _ => Except.ok [], fun _ => Except.ok [],
   fun _ => Except.error ⟨"network failure"⟩, fun _ _ => Except.ok []⟩

/-- Concrete environment with hash check enabled and a hash mismatch. -/
def envHash : Env :=
  ⟨false, fun _ _ => ["320"], fun _ => true, fun _ => true, fun _ => ["a.flac"],
   fun _ _ => "01 a.mp3", fun _ _ => Except.ok [], fun _ => Except.ok [],
   fun _ => Except.ok [1, 2, 3], fun _ _ => Except.ok [SourceRule.HashMismatch "mismatch"]⟩

/-- Concrete path long enough to exceed the platform limit. -/
def longPath : String := String.mk (List.replicate 181 'x')

/-- Concrete per-file tag rules for the ordering scenario. -/
def tg10 : String → List SourceRule :=
  fun fl => if fl = "long.flac" then [SourceRule.TagError "missing title"] else []

/-- Concrete per-file stream rules for the ordering scenario. -/
def st10 : String → List SourceRule :=
  fun fl => if fl = "b.flac" then [SourceRule.StreamError "decode"] else []

/-- Concrete environment with two files, one of which has an oversized
transcode path, with tag and stream findings on distinct files. -/
def envTwoFiles : Env :=
  ⟨true, fun _ _ => ["320"], fun _ => true, fun _ => true,
   fun _ => ["long.flac", "b.flac"],
   fun _ fl => if fl = "long.flac" then longPath else "01 b.mp3",
   fun fl _ => Except.ok (tg10 fl), fun fl => Except.ok (st10 fl),
   fun _ => Except.ok [], fun _ _ => Except.ok []⟩

/-- Rule list of the file-content phase of `envTwoFiles`. -/
def rulesTwoFiles : List SourceRule :=
  [SourceRule.PathTooLong longPath, SourceRule.TagError "missing title",
   SourceRule.StreamError "decode"]

/-- Invocation record of the file-content phase of `envTwoFiles`. -/
def fcTwoFiles : Calls :=
  ⟨1, ["long.flac", "b.flac"], ["long.flac", "b.flac"], ["long.flac", "b.flac"],
   ["long.flac"], 1, 0⟩

/-- When the tag and stream verifiers succeed on every file, the per-file
loop succeeds with the concatenation of the per-file contributions, in
collector order, and invokes the evaluator and both verifiers on exactly the
enumerated files. -/
theorem flacLoop_ok_spec (env : Env) (s : Source) (tg st : String → List SourceRule) :
    ∀ flacs : List String,
      (∀ fl ∈ flacs, env.tagVerify fl s.metadata.media = Except.ok (tg fl)) →
      (∀ fl ∈ flacs, env.streamVerify fl = Except.ok (st fl)) →
      flacLoop env s flacs =
        Except.ok (flacs.flatMap (fileContrib env s tg st), loopCalls env s flacs) := by
  intro flacs
  induction flacs with
  | nil => intro _ _; simp [flacLoop, loopCalls, Calls.none]
  | cons fl rest ih =>
    intro htag hstream
    have h1 := htag fl (List.mem_cons_self fl rest)
    have h2 := hstream fl (List.mem_cons_self fl rest)
    have h3 := ih (fun x hx => htag x (List.mem_cons_of_mem fl hx))
      (fun x hx => hstream x (List.mem_cons_of_mem fl hx))
    simp only [flacLoop, h1, h2, h3, Except.ok.injEq, Prod.mk.injEq]
    constructor
    · simp [fileContrib]
    · simp only [Calls.add, perFileCalls, loopCalls, List.filter_cons]
      cases h : tooLong env s fl <;> simp [h]

/-- If the per-file loop succeeds, the invocation record it returns is fully
determined by the file list: one path evaluation, one tag check and one
stream check per file, the per-track shortener exactly on the files whose
maximum sub path is too long, and no collector, album-shortener or API
invocation. -/
theorem flacLoop_ok_calls (env : Env) (s : Source) :
    ∀ (flacs : List String) (f : List SourceRule) (fc : Calls),
      flacLoop env s flacs = Except.ok (f, fc) → fc = loopCalls env s flacs := by
  intro flacs
  induction flacs with
  | nil =>
    intro f fc h
    simp only [flacLoop, Except.ok.injEq, Prod.mk.injEq] at h
    simp [← h.2, loopCalls, Calls.none]
  | cons fl rest ih =>
    intro f fc h
    simp only [flacLoop] at h
    cases h1 : env.tagVerify fl s.metadata.media with
    | error e => rw [h1] at h; exact absurd h (by simp)
    | ok tagRules =>
      rw [h1] at h
      cases h2 : env.streamVerify fl with
      | error e => rw [h2] at h; exact absurd h (by simp)
      | ok streamRules =>
        rw [h2] at h
        cases h3 : flacLoop env s rest with
        | error e => rw [h3] at h; exact absurd h (by simp)
        | ok pr =>
          rw [h3] at h
          obtain ⟨restRules, restCalls⟩ := pr
          simp only [Except.ok.injEq, Prod.mk.injEq] at h
          have hrc := ih restRules restCalls h3
          rw [← h.2, hrc]
          simp only [Calls.add, perFileCalls, loopCalls, List.filter_cons]
          cases hc : tooLong env s fl <;> simp [hc]

/-- If the per-file loop succeeds, then for every enumerated file whose
maximum transcode sub path is too long, the corresponding `PathTooLong` rule
is in the result. -/
theorem flacLoop_ok_pathTooLong_mem (env : Env) (s : Source) :
    ∀ (flacs : List String) (f : List SourceRule) (fc : Calls),
      flacLoop env s flacs = Except.ok (f, fc) →
      ∀ fl ∈ flacs, tooLong env s fl = true →
        SourceRule.PathTooLong (env.maxTranscodeSubPath s fl) ∈ f := by
  intro flacs
  induction flacs with
  | nil => intro f fc _ fl hfl; exact absurd hfl (List.not_mem_nil fl)
  | cons hd rest ih =>
    intro f fc h fl hfl hlong
    simp only [flacLoop] at h
    cases h1 : env.tagVerify hd s.metadata.media with
    | error e => rw [h1] at h; exact absurd h (by simp)
    | ok tagRules =>
      rw [h1] at h
      cases h2 : env.streamVerify hd with
      | error e => rw [h2] at h; exact absurd h (by simp)
      | ok streamRules =>
        rw [h2] at h
        cases h3 : flacLoop env s rest with
        | error e => rw [h3] at h; exact absurd h (by simp)
        | ok pr =>
          rw [h3] at h
          obtain ⟨restRules, restCalls⟩ := pr
          simp only [Except.ok.injEq, Prod.mk.injEq] at h
          rw [← h.1]
          rcases List.mem_cons.mp hfl with heq | hmem
          · subst heq
            rw [hlong]
            simp
          · have := ih restRules restCalls h3 fl hmem hlong
            simp [this]

/-- If the file-content phase succeeds, its invocation record is determined:
no API call ever; the path evaluator runs on exactly the enumerated files
(none when the directory is missing); the per-track shortener runs on exactly
the files with an oversized path; the collector runs once unless the
directory is missing; the album shortener runs once exactly when a
`PathTooLong` rule is in the result. -/
theorem flac_checks_ok_shape (env : Env) (s : Source) (f : List SourceRule) (fc : Calls)
    (h : flac_checks env s = Except.ok (f, fc)) :
    fc.api = 0 ∧
    fc.pathEval = (if dirMissing env s then [] else env.getFlacs s.directory) ∧
    fc.tagVerifier = (if dirMissing env s then [] else env.getFlacs s.directory) ∧
    fc.streamVerifier = (if dirMissing env s then [] else env.getFlacs s.directory) ∧
    fc.trackShortener =
      (if dirMissing env s then [] else (env.getFlacs s.directory).filter (tooLong env s)) ∧
    fc.collector = (if dirMissing env s then 0 else 1) ∧
    fc.albumShortener = (if f.any SourceRule.isPathTooLong then 1 else 0) := by
  cases hdm : dirMissing env s with
  | true =>
    simp only [flac_checks, hdm, if_true, Except.ok.injEq, Prod.mk.injEq] at h
    rw [← h.1, ← h.2]
    simp [Calls.none, SourceRule.isPathTooLong]
  | false =>
    simp only [flac_checks, hdm, Bool.false_eq_true, if_false] at h
    cases hfe : (env.getFlacs s.directory).isEmpty with
    | true =>
      rw [hfe] at h
      simp only [if_true, Except.ok.injEq, Prod.mk.injEq] at h
      rw [← h.1, ← h.2]
      simp only [List.isEmpty_iff] at hfe
      simp [collectorOnce, hfe, SourceRule.isPathTooLong]
    | false =>
      rw [hfe] at h
      simp only [Bool.false_eq_true, if_false] at h
      cases hl : flacLoop env s (env.getFlacs s.directory) with
      | error e => rw [hl] at h; exact absurd h (by simp)
      | ok pr =>
        rw [hl] at h
        obtain ⟨errors, calls⟩ := pr
        have hc := flacLoop_ok_calls env s (env.getFlacs s.directory) errors calls hl
        simp only [Except.ok.injEq, Prod.mk.injEq] at h
        rw [← h.1, ← h.2, hc]
        cases ha : errors.any SourceRule.isPathTooLong <;>
          simp [Calls.add, collectorOnce, albumOnce, Calls.none, loopCalls, ha]

/-- Full description of a successful file-content phase over a nonempty
collection when every per-file verifier succeeds: the rules are the ordered
per-file contributions and every collaborator invocation is accounted for. -/
theorem flac_checks_ok_full (env : Env) (s : Source) (tg st : String → List SourceRule)
    (hdm : dirMissing env s = false)
    (hne : env.getFlacs s.directory ≠ [])
    (htag : ∀ fl ∈ env.getFlacs s.directory,
      env.tagVerify fl s.metadata.media = Except.ok (tg fl))
    (hstream : ∀ fl ∈ env.getFlacs s.directory, env.streamVerify fl = Except.ok (st fl)) :
    flac_checks env s = Except.ok (phaseRules env s tg st,
      ⟨1, env.getFlacs s.directory, env.getFlacs s.directory, env.getFlacs s.directory,
       (env.getFlacs s.directory).filter (tooLong env s),
       if (phaseRules env s tg st).any SourceRule.isPathTooLong then 1 else 0, 0⟩) := by
  have hfe : (env.getFlacs s.directory).isEmpty = false := by
    simp [List.isEmpty_iff, hne]
  have hl := flacLoop_ok_spec env s tg st (env.getFlacs s.directory) htag hstream
  simp only [flac_checks, hdm, Bool.false_eq_true, if_false, hfe, hl, phaseRules]
  split <;> rename_i hcond <;>
    simp [hcond, Calls.add, collectorOnce, albumOnce, Calls.none, loopCalls]

/-- Inversion of a successful file-content phase over a nonempty collection:
the rules are exactly the rules of the per-file loop. -/
theorem flac_checks_ok_inv (env : Env) (s : Source) (f : List SourceRule) (fc : Calls)
    (hdm : dirMissing env s = false)
    (hfe : (env.getFlacs s.directory).isEmpty = false)
    (hok : flac_checks env s = Except.ok (f, fc)) :
    ∃ calls, flacLoop env s (env.getFlacs s.directory) = Except.ok (f, calls) := by
  simp only [flac_checks, hdm, Bool.false_eq_true, if_false, hfe] at hok
  cases hl : flacLoop env s (env.getFlacs s.directory) with
  | error e => rw [hl] at hok; exact absurd hok (by simp)
  | ok pr =>
    rw [hl] at hok
    obtain ⟨errors, calls⟩ := pr
    simp only [Except.ok.injEq, Prod.mk.injEq] at hok
    exact ⟨calls, by rw [hok.1]⟩

/-- If the hash check succeeds, its invocation record is a single API call. -/
theorem hash_check_ok_calls (env : Env) (s : Source) (h : List SourceRule) (hc : Calls)
    (hok : hash_check env s = Except.ok (h, hc)) : hc = apiOnce := by
  cases h1 : env.apiGetTorrentBuffer s.torrent.id with
  | error e => simp [hash_check, h1] at hok
  | ok buffer =>
    cases h2 : env.imdlVerify buffer s.directory with
    | error e => simp [hash_check, h1, h2] at hok
    | ok rules =>
      simp only [hash_check, h1, h2, Except.ok.injEq, Prod.mk.injEq] at hok
      exact hok.2.symm

/-- C1: for every source, the verdict returned by the verification engine is
true if and only if all three phase rule lists (policy, file-content, hash)
are empty; there is no partial-success state. -/
theorem verified_iff_all_phase_lists_empty (env : Env) (s : Source)
    (f h : List SourceRule) (fc hc : Calls) (v : Bool)
    (rules : List SourceRule) (calls : Calls)
    (hf : flac_checks env s = Except.ok (f, fc))
    (hh : hashPhase env s = Except.ok (h, hc))
    (he : execute env s = Except.ok (v, rules, calls)) :
    v = true ↔ (api_checks env s = [] ∧ f = [] ∧ h = []) := by
  simp only [execute, hf, hh, Except.ok.injEq, Prod.mk.injEq] at he
  rw [← he.1]
  simp [Bool.and_eq_true, List.isEmpty_iff, and_assoc]

/-- Witness for C1 on a concrete rejected scene source: the verdict is false
and the policy list is nonempty. -/
theorem verified_iff_all_phase_lists_empty_witness :
    false = true ↔
      (api_checks envOk srcScene = [] ∧
       ([] : List SourceRule) = [] ∧ ([] : List SourceRule) = []) :=
  verified_iff_all_phase_lists_empty envOk srcScene [] [] fcOk Calls.none false
    [SourceRule.SceneNotSupported] (Calls.add fcOk Calls.none) rfl rfl rfl

/-- C2: whenever the file-content and hash phases complete (hence whenever
the engine completes), the engine returns the pair of the boolean verdict and
the concatenated, phase-ordered rule sequence: policy rules, then
file-content rules, then hash rules. -/
theorem execute_returns_verdict_and_phase_ordered_rules (env : Env) (s : Source)
    (f h : List SourceRule) (fc hc : Calls)
    (hf : flac_checks env s = Except.ok (f, fc))
    (hh : hashPhase env s = Except.ok (h, hc)) :
    execute env s = Except.ok
      ((api_checks env s).isEmpty && f.isEmpty && h.isEmpty,
       api_checks env s ++ f ++ h, Calls.add fc hc) := by
  simp [execute, hf, hh]

/-- Witness for C2 on a concrete source with an enabled hash check that
reports a mismatch. -/
theorem execute_returns_verdict_and_phase_ordered_rules_witness :
    execute envHash srcOk = Except.ok
      ((api_checks envHash srcOk).isEmpty &&
         List.isEmpty ([] : List SourceRule) &&
         List.isEmpty [SourceRule.HashMismatch "mismatch"],
       api_checks envHash srcOk ++ [] ++ [SourceRule.HashMismatch "mismatch"],
       Calls.add fcOk apiOnce) :=
  execute_returns_verdict_and_phase_ordered_rules envHash srcOk
    [] [SourceRule.HashMismatch "mismatch"] fcOk apiOnce rfl rfl

/-- C4: even when the policy phase already guarantees rejection, the later
phase rule lists are still computed and surfaced (the per-file collaborators
run on every enumerated file and the file and hash rules appear in the
output); the only phase whose execution may be skipped is the hash check, and
only via the explicit `skip_hash_check` configuration. -/
theorem later_phases_still_computed (env : Env) (s : Source)
    (f h : List SourceRule) (fc hc : Calls)
    (hne : api_checks env s ≠ [])
    (hf : flac_checks env s = Except.ok (f, fc))
    (hh : hashPhase env s = Except.ok (h, hc)) :
    execute env s = Except.ok (false, api_checks env s ++ f ++ h, Calls.add fc hc) ∧
    fc.pathEval = (if dirMissing env s then [] else env.getFlacs s.directory) ∧
    fc.tagVerifier = (if dirMissing env s then [] else env.getFlacs s.directory) ∧
    fc.streamVerifier = (if dirMissing env s then [] else env.getFlacs s.directory) ∧
    (env.skip_hash_check = true → (Calls.add fc hc).api = 0) ∧
    (env.skip_hash_check = false → (Calls.add fc hc).api = 1) := by
  have shape := flac_checks_ok_shape env s f fc hf
  refine ⟨?_, shape.2.1, shape.2.2.1, shape.2.2.2.1, ?_, ?_⟩
  · have hv : (api_checks env s).isEmpty = false := by simp [List.isEmpty_iff, hne]
    simp [execute, hf, hh, hv]
  · intro hskip
    have hhp : hashPhase env s = Except.ok ([], Calls.none) := by simp [hashPhase, hskip]
    rw [hhp] at hh
    simp only [Except.ok.injEq, Prod.mk.injEq] at hh
    rw [← hh.2]
    simp [Calls.add, Calls.none, shape.1]
  · intro hskip
    have hhc : hash_check env s = Except.ok (h, hc) := by
      rw [← hh]; simp [hashPhase, hskip]
    have hapi := hash_check_ok_calls env s h hc hhc
    simp [Calls.add, shape.1, hapi, apiOnce]

/-- Witness for C4 on a concrete scene source with the hash check enabled:
the file and hash phases still run and their rules are surfaced. -/
theorem later_phases_still_computed_witness :
    execute envHash srcScene = Except.ok
      (false, api_checks envHash srcScene ++ [] ++ [SourceRule.HashMismatch "mismatch"],
       Calls.add fcOk apiOnce) :=
  (later_phases_still_computed envHash srcScene
    [] [SourceRule.HashMismatch "mismatch"] fcOk apiOnce
    (by decide) rfl rfl).1

/-- C5: for every source whose directory does not exist or is not a
directory, the file-content phase returns exactly one rule,
`SourceDirectoryNotFound` carrying the directory path, with no collector
enumeration and no per-file path, tag or stream check (the empty invocation
record); the phase is a pure function of its inputs, so repeated calls on
the same state return the same single rule. -/
theorem missing_directory_single_rule (env : Env) (s : Source)
    (hd : env.dirExists s.directory = false ∨ env.dirIsDir s.directory = false) :
    flac_checks env s =
      Except.ok ([SourceRule.SourceDirectoryNotFound s.directory], Calls.none) := by
  have hdm : dirMissing env s = true := by
    rcases hd with hcase | hcase <;> simp [dirMissing, hcase]
  simp [flac_checks, hdm]

/-- Witness for C5 on a concrete environment whose directory is absent. -/
theorem missing_directory_single_rule_witness :
    flac_checks envNoDir srcOk =
      Except.ok ([SourceRule.SourceDirectoryNotFound "/music/album"], Calls.none) :=
  missing_directory_single_rule envNoDir srcOk (Or.inl rfl)

/-- C6: the policy phase is a pure function of the in-memory source; it
evaluates the four predicates in the fixed order scene flag, lossy-master
approval explicitly true, lossy-web approval explicitly true, empty
eligible-target set, each appending at most one rule; whenever the scene
flag is set the result contains `SceneNotSupported`, and when no flag is set
and at least one target format is eligible the result is empty. -/
theorem policy_phase_characterization (env : Env) (s : Source) :
    api_checks env s =
      (if s.torrent.scene then [SourceRule.SceneNotSupported] else []) ++
      (if s.torrent.lossy_master_approved = some true then
        [SourceRule.LossyMasterNeedsApproval] else []) ++
      (if s.torrent.lossy_web_approved = some true then
        [SourceRule.LossyWebNeedsApproval] else []) ++
      (if (env.targetsGet s.format s.existing).isEmpty then
        [SourceRule.NoTranscodeFormats] else []) ∧
    (s.torrent.scene = true → SourceRule.SceneNotSupported ∈ api_checks env s) ∧
    (s.torrent.scene = false → s.torrent.lossy_master_approved ≠ some true →
      s.torrent.lossy_web_approved ≠ some true →
      (env.targetsGet s.format s.existing).isEmpty = false → api_checks env s = []) := by
  have hchar : api_checks env s =
      (if s.torrent.scene then [SourceRule.SceneNotSupported] else []) ++
      (if s.torrent.lossy_master_approved = some true then
        [SourceRule.LossyMasterNeedsApproval] else []) ++
      (if s.torrent.lossy_web_approved = some true then
        [SourceRule.LossyWebNeedsApproval] else []) ++
      (if (env.targetsGet s.format s.existing).isEmpty then
        [SourceRule.NoTranscodeFormats] else []) := by
    simp only [api_checks]
    split_ifs <;> simp
  refine ⟨hchar, ?_, ?_⟩
  · intro hs
    rw [hchar]
    simp [hs]
  · intro h1 h2 h3 h4
    rw [hchar]
    simp [h1, h2, h3, h4]

/-- Witness for C6: a scene source yields `SceneNotSupported`; a clean source
with an eligible target yields the empty policy list. -/
theorem policy_phase_characterization_witness :
    SourceRule.SceneNotSupported ∈ api_checks envOk srcScene ∧
    api_checks envOk srcOk = [] :=
  ⟨(policy_phase_characterization envOk srcScene).2.1 rfl,
   (policy_phase_characterization envOk srcOk).2.2 rfl (by decide) (by decide) rfl⟩

/-- C3 counterexample: a concrete source with zero eligible target formats
on which the policy phase does contain `NoTranscodeFormats`, yet path-length
evaluation is attempted (once, on the single enumerated file) during the
file-content phase, contradicting the claim that it is never attempted. -/
theorem path_eval_attempted_with_no_formats_cex :
    envNoFormats.targetsGet srcOk.format srcOk.existing = [] ∧
    SourceRule.NoTranscodeFormats ∈ api_checks envNoFormats srcOk ∧
    flac_checks envNoFormats srcOk = Except.ok ([], fcNoFormats) ∧
    fcNoFormats.pathEval = ["t.flac"] :=
  ⟨rfl, by decide, rfl, rfl⟩

/-- C3 amended: for every source whose set of eligible target formats is
empty, the policy phase contains `NoTranscodeFormats`; path-length
evaluation is nonetheless attempted on every enumerated file during the
file-content phase (its invocation does not depend on the eligible-format
set; only a missing directory prevents it). -/
theorem no_transcode_formats_path_eval_each_file (env : Env) (s : Source)
    (hempty : env.targetsGet s.format s.existing = []) :
    SourceRule.NoTranscodeFormats ∈ api_checks env s ∧
    (∀ f fc, flac_checks env s = Except.ok (f, fc) →
      fc.pathEval = (if dirMissing env s then [] else env.getFlacs s.directory)) := by
  constructor
  · simp [api_checks, hempty]
  · intro f fc hok
    exact (flac_checks_ok_shape env s f fc hok).2.1

/-- Witness for the amended C3 on the concrete no-format environment. -/
theorem no_transcode_formats_path_eval_each_file_witness :
    SourceRule.NoTranscodeFormats ∈ api_checks envNoFormats srcOk ∧
    fcNoFormats.pathEval =
      (if dirMissing envNoFormats srcOk then [] else envNoFormats.getFlacs srcOk.directory) :=
  ⟨(no_transcode_formats_path_eval_each_file envNoFormats srcOk rfl).1,
   (no_transcode_formats_path_eval_each_file envNoFormats srcOk rfl).2 [] fcNoFormats rfl⟩

/-- C7: when the hash check is disabled via `skip_hash_check`, the hash phase
contributes an empty rule list and the tracker API is never invoked (zero API
calls in any completed run); otherwise the hash phase is the hash check,
which fetches the torrent descriptor and returns the torrent verifier
rules. -/
theorem skip_hash_semantics (env : Env) (s : Source) :
    (env.skip_hash_check = true →
      hashPhase env s = Except.ok ([], Calls.none) ∧
      ∀ v rules calls, execute env s = Except.ok (v, rules, calls) → calls.api = 0) ∧
    (env.skip_hash_check = false →
      hashPhase env s = hash_check env s ∧
      ∀ buffer rules, env.apiGetTorrentBuffer s.torrent.id = Except.ok buffer →
        env.imdlVerify buffer s.directory = Except.ok rules →
        hash_check env s = Except.ok (rules, apiOnce)) := by
  constructor
  · intro hskip
    have hhp : hashPhase env s = Except.ok ([], Calls.none) := by simp [hashPhase, hskip]
    refine ⟨hhp, ?_⟩
    intro v rules calls he
    cases hfc : flac_checks env s with
    | error e => simp [execute, hfc] at he
    | ok pr =>
      obtain ⟨f, fc⟩ := pr
      have shape := flac_checks_ok_shape env s f fc hfc
      simp only [execute, hfc, hhp, Except.ok.injEq, Prod.mk.injEq] at he
      rw [← he.2.2]
      simp [Calls.add, Calls.none, shape.1]
  · intro hskip
    refine ⟨by simp [hashPhase, hskip], ?_⟩
    intro buffer rules h1 h2
    simp [hash_check, h1, h2]

/-- Witness for C7: with the hash check skipped, the completed concrete run
made zero API calls; with it enabled, the hash phase returns the torrent
verifier rules. -/
theorem skip_hash_semantics_witness :
    (Calls.add fcOk Calls.none).api = 0 ∧
    hash_check envHash srcOk = Except.ok ([SourceRule.HashMismatch "mismatch"], apiOnce) :=
  ⟨((skip_hash_semantics envOk srcOk).1 rfl).2 true [] (Calls.add fcOk Calls.none) rfl,
   ((skip_hash_semantics envHash srcOk).2 rfl).2 [1, 2, 3]
     [SourceRule.HashMismatch "mismatch"] rfl rfl⟩

/-- C8: for every file whose computed maximum transcode sub path exceeds the
platform limit, a `PathTooLong` rule carrying the offending path is in the
phase result and the advisory per-track shortener is invoked on that file;
the per-track shortener runs on exactly the offending files, and the
album-level shortener runs exactly once if and only if a `PathTooLong` rule
was produced. The shorteners appear only in the invocation record, never in
the rule list or the verdict (their advisory output carries no data into
either). -/
theorem path_too_long_appends_rule_and_shortens (env : Env) (s : Source)
    (f : List SourceRule) (fc : Calls)
    (hok : flac_checks env s = Except.ok (f, fc)) :
    (∀ fl ∈ (if dirMissing env s then ([] : List String) else env.getFlacs s.directory),
      tooLong env s fl = true →
        SourceRule.PathTooLong (env.maxTranscodeSubPath s fl) ∈ f ∧
        fl ∈ fc.trackShortener) ∧
    fc.trackShortener =
      (if dirMissing env s then [] else (env.getFlacs s.directory).filter (tooLong env s)) ∧
    fc.albumShortener = (if f.any SourceRule.isPathTooLong then 1 else 0) := by
  have shape := flac_checks_ok_shape env s f fc hok
  refine ⟨?_, shape.2.2.2.2.1, shape.2.2.2.2.2.2⟩
  intro fl hfl hlong
  cases hdm : dirMissing env s with
  | true => rw [hdm] at hfl; simp at hfl
  | false =>
    rw [hdm] at hfl
    simp only [Bool.false_eq_true, if_false] at hfl
    have hne : env.getFlacs s.directory ≠ [] := List.ne_nil_of_mem hfl
    have hfe : (env.getFlacs s.directory).isEmpty = false := by
      simp [List.isEmpty_iff, hne]
    obtain ⟨calls, hl⟩ := flac_checks_ok_inv env s f fc hdm hfe hok
    refine ⟨flacLoop_ok_pathTooLong_mem env s _ f calls hl fl hfl hlong, ?_⟩
    rw [shape.2.2.2.2.1, hdm]
    simp only [Bool.false_eq_true, if_false]
    exact List.mem_filter.mpr ⟨hfl, hlong⟩

/-- Witness for C8 on the concrete two-file environment with one oversized
path: the rule is present, the per-track shortener ran on exactly that file
and the album shortener ran once. -/
theorem path_too_long_appends_rule_and_shortens_witness :
    (SourceRule.PathTooLong longPath ∈ rulesTwoFiles ∧
      "long.flac" ∈ fcTwoFiles.trackShortener) ∧
    fcTwoFiles.albumShortener = (if rulesTwoFiles.any SourceRule.isPathTooLong then 1 else 0) :=
  ⟨(path_too_long_appends_rule_and_shortens envTwoFiles srcOk rulesTwoFiles fcTwoFiles
      rfl).1 "long.flac" (by decide) (by decide),
   (path_too_long_appends_rule_and_shortens envTwoFiles srcOk rulesTwoFiles fcTwoFiles
      rfl).2.2⟩

/-- C9: hard failures are never represented as rules: a tag or stream
verifier failure on a reachable file aborts the file-content phase with the
typed error, a failed file-content phase aborts the whole run with that
error, and with the hash check enabled an API failure aborts the hash check
and the whole run; in every case the run terminates as `Except.error` with
no verdict and no rule report. -/
theorem hard_errors_propagate (env : Env) (s : Source) (e : AppError) :
    (flac_checks env s = Except.error e → execute env s = Except.error e) ∧
    (∀ fl rest, dirMissing env s = false → env.getFlacs s.directory = fl :: rest →
      env.tagVerify fl s.metadata.media = Except.error e →
      flac_checks env s = Except.error e) ∧
    (∀ fl rest tagRules, dirMissing env s = false →
      env.getFlacs s.directory = fl :: rest →
      env.tagVerify fl s.metadata.media = Except.ok tagRules →
      env.streamVerify fl = Except.error e →
      flac_checks env s = Except.error e) ∧
    (env.skip_hash_check = false → env.apiGetTorrentBuffer s.torrent.id = Except.error e →
      hash_check env s = Except.error e ∧
      ∀ f fc, flac_checks env s = Except.ok (f, fc) → execute env s = Except.error e) := by
  refine ⟨?_, ?_, ?_, ?_⟩
  · intro hfc
    simp [execute, hfc]
  · intro fl rest hdm hfl htag
    have hfe : (env.getFlacs s.directory).isEmpty = false := by simp [hfl]
    simp [flac_checks, hdm, hfe, hfl, flacLoop, htag]
  · intro fl rest tagRules hdm hfl htag hstream
    have hfe : (env.getFlacs s.directory).isEmpty = false := by simp [hfl]
    simp [flac_checks, hdm, hfe, hfl, flacLoop, htag, hstream]
  · intro hskip happ
    have hhc : hash_check env s = Except.error e := by simp [hash_check, happ]
    refine ⟨hhc, ?_⟩
    intro f fc hfc
    simp [execute, hfc, hashPhase, hskip, hhc]

/-- Witness for C9: a concrete tag-verifier failure aborts the whole run and
a concrete API failure aborts the hash check and the whole run. -/
theorem hard_errors_propagate_witness :
    execute envTagFails srcOk = Except.error ⟨"io failure"⟩ ∧
    hash_check envApiFails srcOk = Except.error ⟨"network failure"⟩ ∧
    execute envApiFails srcOk = Except.error ⟨"network failure"⟩ :=
  ⟨(hard_errors_propagate envTagFails srcOk ⟨"io failure"⟩).1
     ((hard_errors_propagate envTagFails srcOk ⟨"io failure"⟩).2.1 "a.flac" [] rfl rfl rfl),
   ((hard_errors_propagate envApiFails srcOk ⟨"network failure"⟩).2.2.2 rfl rfl).1,
   ((hard_errors_propagate envApiFails srcOk ⟨"network failure"⟩).2.2.2 rfl rfl).2
     [] fcOk rfl⟩

/-- C10: within the file-content phase, on a source whose directory exists
and contains at least one audio file, and whose per-file verifiers succeed,
the rules are produced per file in the collector enumeration order, and each
file contributes its `PathTooLong` rule (if any) before its tag-verifier
rules, which precede its stream-verifier rules. -/
theorem file_phase_rule_order (env : Env) (s : Source)
    (tg st : String → List SourceRule)
    (hdm : dirMissing env s = false)
    (hne : env.getFlacs s.directory ≠ [])
    (htag : ∀ fl ∈ env.getFlacs s.directory,
      env.tagVerify fl s.metadata.media = Except.ok (tg fl))
    (hstream : ∀ fl ∈ env.getFlacs s.directory, env.streamVerify fl = Except.ok (st fl)) :
    Except.map (fun p => p.1) (flac_checks env s) = Except.ok (phaseRules env s tg st) := by
  rw [flac_checks_ok_full env s tg st hdm hne htag hstream]
  rfl

/-- Witness for C10 on the concrete two-file environment: the phase rules
are exactly path rule, tag rule, stream rule, grouped per file in collector
order. -/
theorem file_phase_rule_order_witness :
    Except.map (fun p => p.1) (flac_checks envTwoFiles srcOk) = Except.ok rulesTwoFiles := by
  have h := file_phase_rule_order envTwoFiles srcOk tg10 st10 rfl (by decide)
    (fun fl _ => rfl) (fun fl _ => rfl)
  rw [h]
  rfl

end Caesura
